import Mathlib

/-!
Shallow embedding of `src/projects/Extract_zip_files/extract_zip_files.py`.

The filesystem is modelled as a finite association of paths to file data
plus a set of directory paths.  A file's data records whether the archive
reader accepts it: `FileData.zipData es` is a structurally valid ZIP
archive holding the entries `es` (relative path, byte content), and
`FileData.rawData bs` is any other byte content.  The Python library
calls are modelled at this granularity:

* `str.endswith` / `str.startswith` on the path's character list;
* `os.path.basename` takes the part after the last `'/'`;
* `os.path.splitext` splits at the last dot of the base name unless every
  character before that dot is itself a dot (Python's rule for hidden
  files such as `.zip`);
* `os.path.join a b` returns `b` when `b` is absolute, otherwise joins
  with a single separator;
* `os.path.exists` is true for files and directories;
* `os.makedirs(d, exist_ok=True)` fails (FileExistsError, uncaught by
  `main`) when `d` is an existing regular file, otherwise ensures `d` is
  a directory;
* `zipfile.ZipFile(p).extractall(out)` writes every entry of the archive
  at `os.path.join(out, name)`, overwriting existing files; opening a
  non-archive raises BadZipFile with message "File is not a zip file";
  opening a directory raises an uncaught OSError (IsADirectoryError).

`main`'s argument parsing models the argparse surface declared in
`_build_parser`: options `-l or --zippedfile` (required) and `-o or --output`;
argparse reports malformed or missing arguments by printing usage plus an
error line to stderr and exiting with status 2 (the `-h` help option is
not modelled).  Uncaught exceptions terminate the process with exit code
1 and a traceback on stderr.
-/

abbrev Bytes := List Nat

inductive FileData where
  | zipData (entries : List (String × Bytes))
  | rawData (bytes : Bytes)
deriving DecidableEq, Repr

structure FS where
  files : List (String × FileData)
  dirs : List String
deriving DecidableEq, Repr

/-- Python `s.endswith(t)`. -/
def endswith (s t : String) : Bool := decide (t.data <:+ s.data)

/-- Python `s.startswith(t)`. -/
def startswith (s t : String) : Bool := decide (t.data <+: s.data)

/-- The part of a character list after the last `'/'`. -/
def lastComponent (cs : List Char) : List Char :=
  cs.foldl (fun acc c => if c = '/' then [] else acc ++ [c]) []

/-- Python `os.path.basename`. -/
def basename (p : String) : String := ⟨lastComponent p.data⟩

/-- First component of Python `os.path.splitext` applied to a base name:
split at the last dot unless every character before it is a dot. -/
def splitextFst (s : String) : String :=
  let cs := s.data
  match ((List.range cs.length).filter (fun i => cs.getD i ' ' = '.')).getLast? with
  | none => s
  | some d => if (cs.take d).any (fun c => c ≠ '.') then ⟨cs.take d⟩ else s

/-- Python `os.path.join` for two components. -/
def joinPath (a b : String) : String :=
  if startswith b "/" then b
  else if a = "" ∨ endswith a "/" then a ++ b
  else a ++ "/" ++ b

/-- First file record with the given path. -/
def findPair (l : List (String × FileData)) (k : String) : Option (String × FileData) :=
  l.find? (fun e => decide (e.1 = k))

/-- Content of the regular file at `p`, if any. -/
def lookupFile (fs : FS) (p : String) : Option FileData :=
  (findPair fs.files p).map (fun e => e.2)

/-- Python `os.path.exists`: true for regular files and directories. -/
def pathExists (fs : FS) (p : String) : Bool :=
  (lookupFile fs p).isSome || decide (p ∈ fs.dirs)

/-- Python `os.makedirs(d, exist_ok=True)`: error when `d` is an existing
regular file, otherwise ensure the directory exists. -/
def makedirs (fs : FS) (d : String) : Except Unit FS :=
  if (lookupFile fs d).isSome then .error ()
  else if decide (d ∈ fs.dirs) then .ok fs
  else .ok { fs with dirs := d :: fs.dirs }

/-- Overwrite-or-create the file `k` with data `v`. -/
def writeEntry (l : List (String × FileData)) (k : String) (v : FileData) :
    List (String × FileData) :=
  l.filter (fun e => !decide (e.1 = k)) ++ [(k, v)]

/-- Write every archive entry below `out`, in order. -/
def writeAll (out : String) (l : List (String × FileData))
    (es : List (String × Bytes)) : List (String × FileData) :=
  es.foldl (fun acc e => writeEntry acc (joinPath out e.1) (FileData.rawData e.2)) l

/-- `ZipFile.extractall(out)` on an archive with entries `es`. -/
def extractall (fs : FS) (out : String) (es : List (String × Bytes)) : FS :=
  { fs with files := writeAll out fs.files es }

/-- The paths at which extraction writes the archive's entries. -/
def targetKeys (out : String) (es : List (String × Bytes)) : List String :=
  es.map (fun e => joinPath out e.1)

/-- The exceptions `extract` can raise.  `osError` stands for the
OSError subclasses (FileExistsError, IsADirectoryError) that `main` does
not catch. -/
inductive PyError where
  | valueError (msg : String)
  | fileNotFoundError (msg : String)
  | badZipFile (msg : String)
  | osError (msg : String)
deriving DecidableEq, Repr

/-- The destination directory `extract` resolves: the explicit output
directory if given, else `os.path.join(os.getcwd(), archive_name)`. -/
def resolveOut (cwd zip_path : String) (output_dir : Option String) : String :=
  output_dir.getD (joinPath cwd (splitextFst (basename zip_path)))

/-- The function `extract(zip_path, output_dir)`.  Returns the filesystem
after the call together with the raised exception, if any. -/
def extract (fs : FS) (cwd zip_path : String) (output_dir : Option String) :
    FS × Option PyError :=
  if endswith zip_path ".zip" = false then
    (fs, some (.valueError ("Not a zip file: " ++ zip_path)))
  else if pathExists fs zip_path = false then
    (fs, some (.fileNotFoundError ("Zip file not found: " ++ zip_path)))
  else
    let out := output_dir.getD (joinPath cwd (splitextFst (basename zip_path)))
    match makedirs fs out with
    | .error _ => (fs, some (.osError "FileExistsError"))
    | .ok fs1 =>
      match lookupFile fs1 zip_path with
      | some (.zipData entries) => (extractall fs1 out entries, none)
      | some (.rawData _) => (fs1, some (.badZipFile "File is not a zip file"))
      | none => (fs1, some (.osError "IsADirectoryError"))

/-- Parsed command-line options. -/
structure Args where
  zippedfile : String
  output : Option String
deriving DecidableEq, Repr

/-- Scan the argument vector for `-l or --zippedfile` and `-o or --output`;
any other token, or an option missing its value, is an argparse error. -/
def parseOpts : List String → Option String → Option String →
    Except Unit (Option String × Option String)
  | [], zf, out => .ok (zf, out)
  | [_], _, _ => .error ()
  | a :: v :: rest, zf, out =>
    if a = "-l" ∨ a = "--zippedfile" then parseOpts rest (some v) out
    else if a = "-o" ∨ a = "--output" then parseOpts rest zf (some v)
    else .error ()

/-- `argparse.parse_args`: malformed arguments or a missing required
`-l or --zippedfile` terminate with argparse's usage-error status 2. -/
def parseArgs (argv : List String) : Except Nat Args :=
  match parseOpts argv none none with
  | .error _ => .error 2
  | .ok (none, _) => .error 2
  | .ok (some z, out) => .ok { zippedfile := z, output := out }

/-- The two stderr lines argparse prints on a usage error. -/
def usageLines : List String :=
  ["usage: extract_zip_files [-h] -l ZIPPEDFILE [-o OUTPUT]",
   "extract_zip_files: error: invalid or missing arguments"]

/-- Observable outcome of one process run: exit status, the lines written
to stdout and stderr, and the final filesystem. -/
structure CliOutcome where
  exitCode : Nat
  stdoutLines : List String
  stderrLines : List String
  fs : FS
deriving DecidableEq, Repr

/-- The whole program: `main()` wrapped in `SystemExit`, on a given
filesystem, working directory and argument vector. -/
def mainRun (fs : FS) (cwd : String) (argv : List String) : CliOutcome :=
  match parseArgs argv with
  | .error c => { exitCode := c, stdoutLines := [], stderrLines := usageLines, fs := fs }
  | .ok args =>
    match extract fs cwd args.zippedfile args.output with
    | (fs1, none) =>
      { exitCode := 0, stdoutLines := ["Extracted successfully."], stderrLines := [], fs := fs1 }
    | (fs1, some (.fileNotFoundError m)) =>
      { exitCode := 2, stdoutLines := [], stderrLines := [m], fs := fs1 }
    | (fs1, some (.valueError m)) =>
      { exitCode := 3, stdoutLines := [], stderrLines := [m], fs := fs1 }
    | (fs1, some (.badZipFile m)) =>
      { exitCode := 4, stdoutLines := [], stderrLines := ["Invalid zip file: " ++ m], fs := fs1 }
    | (fs1, some (.osError m)) =>
      { exitCode := 1, stdoutLines := [],
        stderrLines := ["Traceback (most recent call last): " ++ m], fs := fs1 }

/-- The argument vector of an invocation naming the archive and,
optionally, the output directory. -/
def argvOf (p : String) (o : Option String) : List String :=
  match o with
  | none => ["-l", p]
  | some d => ["-l", p, "-o", d]

theorem parseArgs_argvOf (p : String) (o : Option String) :
    parseArgs (argvOf p o) = .ok ⟨p, o⟩ := by
  cases o <;> rfl

theorem parseArgs_error_two (argv : List String) (c : Nat)
    (h : parseArgs argv = .error c) : c = 2 := by
  unfold parseArgs at h
  rcases hp : parseOpts argv none none with u | ⟨z, out⟩ <;> rw [hp] at h
  · injection h with h'
    exact h'.symm
  · cases z with
    | none =>
      injection h with h'
      exact h'.symm
    | some z => exact absurd h (by simp)

theorem makedirs_ok (fs : FS) (d : String) (fs' : FS)
    (h : makedirs fs d = .ok fs') : fs'.files = fs.files ∧ d ∈ fs'.dirs := by
  unfold makedirs at h
  split at h
  · exact absurd h (by simp)
  · split at h
    · rename_i hmem
      injection h with h'
      subst h'
      exact ⟨rfl, of_decide_eq_true hmem⟩
    · injection h with h'
      subst h'
      exact ⟨rfl, List.mem_cons_self d fs.dirs⟩

theorem endswith_zip_eq_false_of_ZIP (p : String) (h : endswith p ".ZIP" = true) :
    endswith p ".zip" = false := by
  have hZ : (".ZIP".data) <:+ p.data := of_decide_eq_true h
  cases hb : endswith p ".zip" with
  | false => rfl
  | true =>
    exfalso
    have hz : (".zip".data) <:+ p.data := of_decide_eq_true hb
    obtain ⟨t1, e1⟩ := hZ
    obtain ⟨t2, e2⟩ := hz
    have e3 : t1 ++ ".ZIP".data = t2 ++ ".zip".data := e1.trans e2.symm
    have hsuf : (".ZIP".data) = (".zip".data) := (List.append_inj' e3 (by decide)).2
    exact absurd hsuf (by decide)

example : basename "/tmp/foo.zip" = "foo.zip" := by decide
example : splitextFst "foo.zip" = "foo" := by decide
example : splitextFst ".zip" = ".zip" := by decide
example : endswith "a.zip" ".zip" = true := by decide
example : endswith "a.ZIP" ".zip" = false := by decide
example : joinPath "/home" "foo" = "/home/foo" := by decide
example : parseArgs ["-l", "a.zip"] = .ok ⟨"a.zip", none⟩ := rfl
example : parseArgs [] = .error 2 := rfl
example :
    extract ⟨[("/a.zip", .zipData [("x.txt", [1])])], []⟩ "" "/a.zip" (some "/out")
      = (⟨[("/a.zip", .zipData [("x.txt", [1])]), ("/out/x.txt", .rawData [1])], ["/out"]⟩,
         none) := by decide

/-- Claim C2: for every path string that does not end with ".zip",
`extract` raises `ValueError` (mapped by `main` to exit code 3) and
performs no filesystem writes: the filesystem is returned unchanged, so
no directory is created and no entry is written. -/
theorem extract_bad_extension (fs : FS) (cwd p : String) (o : Option String)
    (h : endswith p ".zip" = false) :
    extract fs cwd p o = (fs, some (.valueError ("Not a zip file: " ++ p)))
    ∧ (mainRun fs cwd (argvOf p o)).exitCode = 3
    ∧ (mainRun fs cwd (argvOf p o)).fs = fs
    ∧ (mainRun fs cwd (argvOf p o)).stdoutLines = [] := by
  have he : extract fs cwd p o = (fs, some (.valueError ("Not a zip file: " ++ p))) := by
    simp [extract, h]
  refine ⟨he, ?_, ?_, ?_⟩ <;> simp [mainRun, parseArgs_argvOf, he]

/-- Witness for `extract_bad_extension` at the path "a.txt". -/
theorem extract_bad_extension_w :
    extract ⟨[], []⟩ "" "a.txt" none
        = (⟨[], []⟩, some (.valueError ("Not a zip file: " ++ "a.txt")))
    ∧ (mainRun ⟨[], []⟩ "" (argvOf "a.txt" none)).exitCode = 3
    ∧ (mainRun ⟨[], []⟩ "" (argvOf "a.txt" none)).fs = ⟨[], []⟩
    ∧ (mainRun ⟨[], []⟩ "" (argvOf "a.txt" none)).stdoutLines = [] :=
  extract_bad_extension ⟨[], []⟩ "" "a.txt" none (by decide)

/-- Claim C3: for every path that ends with ".zip" but does not reference
any existing filesystem object (`os.path.exists` is false), `extract`
raises `FileNotFoundError` (mapped by `main` to exit code 2) and performs
no filesystem writes. -/
theorem extract_missing_file (fs : FS) (cwd p : String) (o : Option String)
    (h1 : endswith p ".zip" = true) (h2 : pathExists fs p = false) :
    extract fs cwd p o = (fs, some (.fileNotFoundError ("Zip file not found: " ++ p)))
    ∧ (mainRun fs cwd (argvOf p o)).exitCode = 2
    ∧ (mainRun fs cwd (argvOf p o)).fs = fs
    ∧ (mainRun fs cwd (argvOf p o)).stdoutLines = [] := by
  have he : extract fs cwd p o
      = (fs, some (.fileNotFoundError ("Zip file not found: " ++ p))) := by
    simp [extract, h1, h2]
  refine ⟨he, ?_, ?_, ?_⟩ <;> simp [mainRun, parseArgs_argvOf, he]

/-- Witness for `extract_missing_file` at the path "a.zip" on an empty
filesystem. -/
theorem extract_missing_file_w :
    extract ⟨[], []⟩ "" "a.zip" none
        = (⟨[], []⟩, some (.fileNotFoundError ("Zip file not found: " ++ "a.zip")))
    ∧ (mainRun ⟨[], []⟩ "" (argvOf "a.zip" none)).exitCode = 2
    ∧ (mainRun ⟨[], []⟩ "" (argvOf "a.zip" none)).fs = ⟨[], []⟩
    ∧ (mainRun ⟨[], []⟩ "" (argvOf "a.zip" none)).stdoutLines = [] :=
  extract_missing_file ⟨[], []⟩ "" "a.zip" none (by decide) (by decide)

/-- Claim C9: the extension check takes precedence over the existence
check.  For every path that both lacks the ".zip" suffix and does not
exist, `extract` raises `ValueError` (exit code 3), not
`FileNotFoundError` (exit code 2). -/
theorem extract_extension_precedence (fs : FS) (cwd p : String) (o : Option String)
    (h1 : endswith p ".zip" = false) (h2 : pathExists fs p = false) :
    extract fs cwd p o = (fs, some (.valueError ("Not a zip file: " ++ p)))
    ∧ (mainRun fs cwd (argvOf p o)).exitCode = 3
    ∧ ¬(mainRun fs cwd (argvOf p o)).exitCode = 2 := by
  have he : extract fs cwd p o = (fs, some (.valueError ("Not a zip file: " ++ p))) := by
    simp [extract, h1]
  refine ⟨he, ?_, ?_⟩ <;> simp [mainRun, parseArgs_argvOf, he]

/-- Witness for `extract_extension_precedence` at the nonexistent
non-zip path "missing.txt". -/
theorem extract_extension_precedence_w :
    extract ⟨[], []⟩ "" "missing.txt" none
        = (⟨[], []⟩, some (.valueError ("Not a zip file: " ++ "missing.txt")))
    ∧ (mainRun ⟨[], []⟩ "" (argvOf "missing.txt" none)).exitCode = 3
    ∧ ¬(mainRun ⟨[], []⟩ "" (argvOf "missing.txt" none)).exitCode = 2 :=
  extract_extension_precedence ⟨[], []⟩ "" "missing.txt" none (by decide) (by decide)

/-- Claim C10: the suffix check is case-sensitive.  A path ending in
".ZIP" that references an existing, structurally valid archive is still
rejected with `ValueError` (exit code 3) and nothing is extracted. -/
theorem extract_case_sensitive (fs : FS) (cwd p : String) (o : Option String)
    (es : List (String × Bytes))
    (hZ : endswith p ".ZIP" = true)
    (har : lookupFile fs p = some (.zipData es)) :
    extract fs cwd p o = (fs, some (.valueError ("Not a zip file: " ++ p)))
    ∧ (mainRun fs cwd (argvOf p o)).exitCode = 3
    ∧ (mainRun fs cwd (argvOf p o)).fs = fs := by
  have h := endswith_zip_eq_false_of_ZIP p hZ
  have he : extract fs cwd p o = (fs, some (.valueError ("Not a zip file: " ++ p))) := by
    simp [extract, h]
  refine ⟨he, ?_, ?_⟩ <;> simp [mainRun, parseArgs_argvOf, he]

/-- Witness for `extract_case_sensitive`: an existing valid archive named
"a.ZIP" is rejected. -/
theorem extract_case_sensitive_w :
    extract ⟨[("a.ZIP", .zipData [("x.txt", [1])])], []⟩ "" "a.ZIP" none
        = (⟨[("a.ZIP", .zipData [("x.txt", [1])])], []⟩,
           some (.valueError ("Not a zip file: " ++ "a.ZIP")))
    ∧ (mainRun ⟨[("a.ZIP", .zipData [("x.txt", [1])])], []⟩ "" (argvOf "a.ZIP" none)).exitCode = 3
    ∧ (mainRun ⟨[("a.ZIP", .zipData [("x.txt", [1])])], []⟩ "" (argvOf "a.ZIP" none)).fs
        = ⟨[("a.ZIP", .zipData [("x.txt", [1])])], []⟩ :=
  extract_case_sensitive ⟨[("a.ZIP", .zipData [("x.txt", [1])])], []⟩ "" "a.ZIP" none
    [("x.txt", [1])] (by decide) (by decide)

/-- Counterexample to claim C6: invoking the CLI with the required
source-archive option missing terminates with exit code 2 (argparse's
usage-error status), not with exit code 3. -/
theorem cli_missing_arg_not_three :
    (mainRun ⟨[], []⟩ "" []).exitCode = 2
    ∧ ¬(mainRun ⟨[], []⟩ "" []).exitCode = 3 := by decide

/-- Claim C6 (amended): for every invocation with malformed arguments
(any argument vector the parser rejects), the process exits with code 2,
argparse's usage-error status — the code also used for a missing file —
writing nothing to stdout and mutating no filesystem state. -/
theorem cli_bad_args_exit_two (fs : FS) (cwd : String) (argv : List String) (c : Nat)
    (h : parseArgs argv = .error c) :
    c = 2 ∧ (mainRun fs cwd argv).exitCode = 2
    ∧ (mainRun fs cwd argv).stdoutLines = []
    ∧ (mainRun fs cwd argv).fs = fs := by
  have hc : c = 2 := parseArgs_error_two argv c h
  subst hc
  refine ⟨rfl, ?_, ?_, ?_⟩ <;> simp [mainRun, h]

/-- Witness for `cli_bad_args_exit_two` at the empty argument vector. -/
theorem cli_bad_args_exit_two_w :
    (2 : Nat) = 2 ∧ (mainRun ⟨[], []⟩ "" []).exitCode = 2
    ∧ (mainRun ⟨[], []⟩ "" []).stdoutLines = []
    ∧ (mainRun ⟨[], []⟩ "" []).fs = ⟨[], []⟩ :=
  cli_bad_args_exit_two ⟨[], []⟩ "" [] 2 rfl

/-- Claim C8: on every invocation, the line "Extracted successfully." is
written to stdout iff the run exits with code 0; and whenever `extract`
fails with one of its three categorised errors (wrong extension, missing
file, corrupt archive), exactly one descriptive line goes to stderr and
nothing goes to stdout. -/
theorem cli_streams (fs : FS) (cwd : String) (argv : List String) :
    ((mainRun fs cwd argv).stdoutLines = ["Extracted successfully."]
        ↔ (mainRun fs cwd argv).exitCode = 0)
    ∧ (∀ args m, parseArgs argv = .ok args →
        ((extract fs cwd args.zippedfile args.output).2 = some (.valueError m) ∨
         (extract fs cwd args.zippedfile args.output).2 = some (.fileNotFoundError m) ∨
         (extract fs cwd args.zippedfile args.output).2 = some (.badZipFile m)) →
        (mainRun fs cwd argv).stdoutLines = []
          ∧ (mainRun fs cwd argv).stderrLines.length = 1) := by
  constructor
  · unfold mainRun
    cases hp : parseArgs argv with
    | error c =>
      have hc : c = 2 := parseArgs_error_two argv c hp
      subst hc
      simp
    | ok args =>
      rcases hx : extract fs cwd args.zippedfile args.output with ⟨fs1, err⟩
      simp only [hx]
      cases err with
      | none => simp
      | some e => cases e <;> simp
  · intro args m hp hor
    unfold mainRun
    rw [hp]
    rcases hx : extract fs cwd args.zippedfile args.output with ⟨fs1, err⟩
    rw [hx] at hor
    simp only [hx]
    rcases hor with h | h | h <;> simp only [] at h <;> subst h <;> simp

/-- Witness for `cli_streams`: the wrong-extension failure writes one
stderr line and nothing to stdout. -/
theorem cli_streams_w :
    (mainRun ⟨[], []⟩ "" ["-l", "x"]).stdoutLines = []
    ∧ (mainRun ⟨[], []⟩ "" ["-l", "x"]).stderrLines.length = 1 :=
  (cli_streams ⟨[], []⟩ "" ["-l", "x"]).2 ⟨"x", none⟩ ("Not a zip file: " ++ "x")
    rfl (Or.inl (by decide))

/-- Claim C5: when the output directory is omitted, the destination is
computed as the current working directory joined with the archive's base
name (directory components and extension stripped): the call with `None`
behaves exactly like the call with that derived directory, and for the
source "/tmp/foo.zip" the derived destination is `cwd ++ "/foo"`. -/
theorem extract_default_output (fs : FS) (cwd p : String) :
    extract fs cwd p none
        = extract fs cwd p (some (joinPath cwd (splitextFst (basename p))))
    ∧ resolveOut cwd p none = joinPath cwd (splitextFst (basename p))
    ∧ (∀ c : String, ¬c = "" → endswith c "/" = false →
        resolveOut c "/tmp/foo.zip" none = c ++ "/foo") := by
  refine ⟨rfl, rfl, ?_⟩
  intro c hc hs
  show joinPath c (splitextFst (basename "/tmp/foo.zip")) = c ++ "/foo"
  have hb : splitextFst (basename "/tmp/foo.zip") = "foo" := by decide
  rw [hb]
  unfold joinPath
  rw [if_neg (by decide)]
  rw [if_neg ?hcond]
  case hcond =>
    intro hor
    rcases hor with h | h
    · exact hc h
    · rw [hs] at h
      exact absurd h (by decide)
  have hfoo : ("/" : String) ++ "foo" = "/foo" := by decide
  rw [String.append_assoc, hfoo]

/-- Witness for `extract_default_output` at cwd "/home". -/
theorem extract_default_output_w :
    extract ⟨[], []⟩ "/home" "/tmp/foo.zip" none
        = extract ⟨[], []⟩ "/home" "/tmp/foo.zip"
            (some (joinPath "/home" (splitextFst (basename "/tmp/foo.zip"))))
    ∧ resolveOut "/home" "/tmp/foo.zip" none
        = joinPath "/home" (splitextFst (basename "/tmp/foo.zip"))
    ∧ resolveOut "/home" "/tmp/foo.zip" none = "/home" ++ "/foo" :=
  ⟨(extract_default_output ⟨[], []⟩ "/home" "/tmp/foo.zip").1,
   (extract_default_output ⟨[], []⟩ "/home" "/tmp/foo.zip").2.1,
   (extract_default_output ⟨[], []⟩ "/home" "/tmp/foo.zip").2.2 "/home"
     (by decide) (by decide)⟩

/-- Claim C4: an existing ".zip" path whose content is not a valid
archive makes `extract` raise `BadZipFile` (mapped to exit code 4), and
this happens after the destination directory was created: the returned
filesystem keeps the created directory, which is not rolled back. -/
theorem extract_corrupt_archive (fs fs1 : FS) (cwd p : String) (o : Option String) (bs : Bytes)
    (h1 : endswith p ".zip" = true)
    (h2 : lookupFile fs p = some (.rawData bs))
    (h3 : makedirs fs (resolveOut cwd p o) = .ok fs1) :
    extract fs cwd p o = (fs1, some (.badZipFile "File is not a zip file"))
    ∧ resolveOut cwd p o ∈ fs1.dirs
    ∧ (mainRun fs cwd (argvOf p o)).exitCode = 4
    ∧ (mainRun fs cwd (argvOf p o)).fs = fs1 := by
  obtain ⟨hfiles, hdir⟩ := makedirs_ok fs _ fs1 h3
  have hex : pathExists fs p = true := by simp [pathExists, h2]
  have h2' : lookupFile fs1 p = some (.rawData bs) := by
    unfold lookupFile at h2 ⊢
    rw [hfiles]
    exact h2
  have he : extract fs cwd p o = (fs1, some (.badZipFile "File is not a zip file")) := by
    unfold resolveOut at h3
    simp [extract, h1, hex, h3, h2']
  refine ⟨he, hdir, ?_, ?_⟩ <;> simp [mainRun, parseArgs_argvOf, he]

/-- Witness for `extract_corrupt_archive`: a non-archive file "/a.zip"
extracted to "/out". -/
theorem extract_corrupt_archive_w :
    extract ⟨[("/a.zip", .rawData [0])], []⟩ "" "/a.zip" (some "/out")
        = (⟨[("/a.zip", .rawData [0])], ["/out"]⟩, some (.badZipFile "File is not a zip file"))
    ∧ resolveOut "" "/a.zip" (some "/out") ∈ (FS.mk [("/a.zip", .rawData [0])] ["/out"]).dirs
    ∧ (mainRun ⟨[("/a.zip", .rawData [0])], []⟩ "" (argvOf "/a.zip" (some "/out"))).exitCode = 4
    ∧ (mainRun ⟨[("/a.zip", .rawData [0])], []⟩ "" (argvOf "/a.zip" (some "/out"))).fs
        = ⟨[("/a.zip", .rawData [0])], ["/out"]⟩ :=
  extract_corrupt_archive ⟨[("/a.zip", .rawData [0])], []⟩ ⟨[("/a.zip", .rawData [0])], ["/out"]⟩
    "" "/a.zip" (some "/out") [0] (by decide) (by decide) rfl

theorem targetKeys_cons (out : String) (e : String × Bytes) (es : List (String × Bytes)) :
    targetKeys out (e :: es) = joinPath out e.1 :: targetKeys out es := rfl

theorem writeAll_cons (out : String) (l : List (String × FileData)) (e : String × Bytes)
    (es : List (String × Bytes)) :
    writeAll out l (e :: es)
      = writeAll out (writeEntry l (joinPath out e.1) (FileData.rawData e.2)) es := rfl

theorem writeAll_split (out : String) (es : List (String × Bytes)) :
    ∀ l : List (String × FileData),
      writeAll out l es
        = l.filter (fun x => !decide (x.1 ∈ targetKeys out es)) ++ writeAll out [] es := by
  induction es with
  | nil => intro l; simp [writeAll, targetKeys]
  | cons e es ih =>
    intro l
    rw [writeAll_cons, ih (writeEntry l (joinPath out e.1) (FileData.rawData e.2)),
        writeAll_cons out [] e es, ih (writeEntry [] (joinPath out e.1) (FileData.rawData e.2))]
    unfold writeEntry
    simp only [List.filter_append, List.filter_filter, List.filter_nil, List.nil_append,
        List.append_assoc]
    have hpred : ∀ a : String × FileData, a ∈ l →
        ((!decide (a.1 ∈ targetKeys out es)) && (!decide (a.1 = joinPath out e.1)))
          = !decide (a.1 ∈ targetKeys out (e :: es)) := by
      intro a _
      rw [targetKeys_cons]
      simp [List.mem_cons, not_or, Bool.and_comm]
    rw [List.filter_congr hpred]

theorem writeAll_nil_keys (out : String) (es : List (String × Bytes)) :
    ∀ x ∈ writeAll out [] es, x.1 ∈ targetKeys out es := by
  induction es with
  | nil => intro x hx; simp [writeAll] at hx
  | cons e es ih =>
    intro x hx
    rw [writeAll_cons, writeAll_split] at hx
    rcases List.mem_append.1 hx with h | h
    · have hm := (List.mem_filter.1 h).1
      have : x = (joinPath out e.1, FileData.rawData e.2) := by
        simpa [writeEntry] using hm
      rw [targetKeys_cons, this]
      exact List.mem_cons_self _ _
    · rw [targetKeys_cons]
      exact List.mem_cons_of_mem _ (ih x h)

theorem writeAll_idem (out : String) (es : List (String × Bytes))
    (l : List (String × FileData)) :
    writeAll out (writeAll out l es) es = writeAll out l es := by
  conv_lhs => rw [writeAll_split out es (writeAll out l es)]
  rw [writeAll_split out es l]
  rw [List.filter_append, List.filter_filter]
  have h1 : (writeAll out [] es).filter (fun x => !decide (x.1 ∈ targetKeys out es)) = [] := by
    rw [List.filter_eq_nil_iff]
    intro a ha
    have hk := writeAll_nil_keys out es a ha
    simp [hk]
  have h2 : l.filter
        (fun a => (!decide (a.1 ∈ targetKeys out es)) && (!decide (a.1 ∈ targetKeys out es)))
      = l.filter (fun x => !decide (x.1 ∈ targetKeys out es)) := by
    apply List.filter_congr
    intro a _
    exact Bool.and_self _
  rw [h1, h2, List.append_nil]

theorem findPair_filter_ne (l : List (String × FileData)) (k q : String) (h : ¬q = k) :
    findPair (l.filter (fun e => !decide (e.1 = k))) q = findPair l q := by
  induction l with
  | nil => rfl
  | cons e l ih =>
    by_cases he : e.1 = q
    · have hek : ¬(e.1 = k) := by rw [he]; exact h
      rw [List.filter_cons_of_pos (by simp [hek])]
      unfold findPair
      rw [List.find?_cons_of_pos _ (by simp [he]), List.find?_cons_of_pos _ (by simp [he])]
    · by_cases hek : e.1 = k
      · rw [List.filter_cons_of_neg (by simp [hek])]
        unfold findPair at ih ⊢
        rw [List.find?_cons_of_neg _ (by simp [he])]
        exact ih
      · rw [List.filter_cons_of_pos (by simp [hek])]
        unfold findPair at ih ⊢
        rw [List.find?_cons_of_neg _ (by simp [he]), List.find?_cons_of_neg _ (by simp [he])]
        exact ih

theorem findPair_writeEntry_ne (l : List (String × FileData)) (k q : String) (v : FileData)
    (h : ¬q = k) : findPair (writeEntry l k v) q = findPair l q := by
  unfold writeEntry findPair
  rw [List.find?_append]
  have h2 : List.find? (fun e : String × FileData => decide (e.1 = q)) [(k, v)] = none := by
    rw [List.find?_cons_of_neg]
    · rfl
    · simp
      exact fun hh => h hh.symm
  rw [h2, Option.or_none]
  exact findPair_filter_ne l k q h

theorem findPair_writeAll_ne (out : String) (es : List (String × Bytes)) (q : String) :
    ∀ l, ¬q ∈ targetKeys out es → findPair (writeAll out l es) q = findPair l q := by
  induction es with
  | nil => intro l _; rfl
  | cons e es ih =>
    intro l h
    have h1 : ¬q = joinPath out e.1 := fun hh => h (by
      rw [targetKeys_cons, hh]
      exact List.mem_cons_self _ _)
    have h2 : ¬q ∈ targetKeys out es := fun hh => h (by
      rw [targetKeys_cons]
      exact List.mem_cons_of_mem _ hh)
    rw [writeAll_cons, ih _ h2, findPair_writeEntry_ne _ _ _ _ h1]

theorem joinPath_rel (out n : String) (h0 : ¬out = "") (h1 : endswith out "/" = false)
    (h2 : startswith n "/" = false) : joinPath out n = out ++ "/" ++ n := by
  have c1 : ¬(startswith n "/" = true) := by
    rw [h2]
    exact Bool.false_ne_true
  have c2 : ¬(out = "" ∨ endswith out "/" = true) := by
    intro hor
    rcases hor with h | h
    · exact h0 h
    · rw [h1] at h
      exact Bool.false_ne_true h
  unfold joinPath
  rw [if_neg c1, if_neg c2]

theorem append_left_cancel_str (a x y : String) (h : a ++ x = a ++ y) : x = y := by
  apply String.ext
  have h2 := congrArg String.data h
  rw [String.data_append, String.data_append] at h2
  exact List.append_cancel_left h2

theorem joinPath_inj (out n1 n2 : String) (h0 : ¬out = "") (h1 : endswith out "/" = false)
    (hn1 : startswith n1 "/" = false) (hn2 : startswith n2 "/" = false)
    (h : joinPath out n1 = joinPath out n2) : n1 = n2 := by
  rw [joinPath_rel out n1 h0 h1 hn1, joinPath_rel out n2 h0 h1 hn2] at h
  exact append_left_cancel_str (out ++ "/") n1 n2 h

theorem startswith_target (out n : String) (h0 : ¬out = "") (h1 : endswith out "/" = false)
    (h2 : startswith n "/" = false) :
    startswith (joinPath out n) (out ++ "/") = true := by
  rw [joinPath_rel out n h0 h1 h2]
  unfold startswith
  apply decide_eq_true
  exact ⟨n.data, (String.data_append (out ++ "/") n).symm⟩

theorem makedirs_mem (fs : FS) (d : String) (h : lookupFile fs d = none)
    (hd : d ∈ fs.dirs) : makedirs fs d = .ok fs := by
  simp [makedirs, h, hd]

theorem makedirs_isOk (fs : FS) (d : String) (h : lookupFile fs d = none) :
    ∃ fs2, makedirs fs d = .ok fs2 := by
  by_cases hd : d ∈ fs.dirs
  · exact ⟨fs, by simp [makedirs, h, hd]⟩
  · exact ⟨{ fs with dirs := d :: fs.dirs }, by simp [makedirs, h, hd]⟩

theorem extract_success_shape (fs fs2 : FS) (cwd p : String) (o : Option String)
    (es : List (String × Bytes))
    (h1 : endswith p ".zip" = true)
    (h2 : lookupFile fs p = some (.zipData es))
    (hmd : makedirs fs (resolveOut cwd p o) = .ok fs2) :
    extract fs cwd p o = (extractall fs2 (resolveOut cwd p o) es, none) := by
  have hex : pathExists fs p = true := by simp [pathExists, h2]
  have h2' : lookupFile fs2 p = some (.zipData es) := by
    unfold lookupFile at h2 ⊢
    rw [(makedirs_ok fs _ fs2 hmd).1]
    exact h2
  unfold resolveOut at hmd
  simp [extract, h1, hex, hmd, h2', resolveOut]

theorem findPair_writeAll_nil (out : String) (es : List (String × Bytes))
    (h0 : ¬out = "") (h1 : endswith out "/" = false) :
    ∀ n b, (∀ e ∈ es, startswith e.1 "/" = false) → (es.map Prod.fst).Nodup →
      (n, b) ∈ es →
      findPair (writeAll out [] es) (joinPath out n)
        = some (joinPath out n, FileData.rawData b) := by
  induction es with
  | nil =>
    intro n b _ _ hb
    cases hb
  | cons e es ih =>
    intro n b hrel hn hb
    rw [writeAll_cons, writeAll_split]
    have hrel' : ∀ x ∈ es, startswith x.1 "/" = false :=
      fun x hx => hrel x (List.mem_cons_of_mem _ hx)
    have hne : e.1 ∉ es.map Prod.fst := (List.nodup_cons.1 (by simpa using hn)).1
    have hn' : (es.map Prod.fst).Nodup := (List.nodup_cons.1 (by simpa using hn)).2
    rcases List.mem_cons.1 hb with hb | hb
    · subst hb
      have hknot : joinPath out n ∉ targetKeys out es := by
        intro hm
        obtain ⟨x, hx, hxe⟩ := List.mem_map.1 hm
        have hx1 : x.1 = n := joinPath_inj out x.1 n h0 h1 (hrel' x hx)
          (hrel (n, b) (List.mem_cons_self _ _)) hxe
        exact hne (by
          show n ∈ es.map Prod.fst
          rw [← hx1]
          exact List.mem_map_of_mem Prod.fst hx)
      have hwe : writeEntry [] (joinPath out n) (FileData.rawData b)
          = [(joinPath out n, FileData.rawData b)] := rfl
      rw [hwe, List.filter_cons_of_pos (by simp [hknot]), List.filter_nil, List.cons_append]
      unfold findPair
      rw [List.find?_cons_of_pos _ (by simp)]
    · have hnin : n ∈ es.map Prod.fst := List.mem_map_of_mem Prod.fst hb
      have hqk : ¬joinPath out n = joinPath out e.1 := by
        intro hh
        have hx1 : n = e.1 := joinPath_inj out n e.1 h0 h1 (hrel' (n, b) hb)
          (hrel e (List.mem_cons_self _ _)) hh
        exact hne (by rw [← hx1]; exact hnin)
      have hpart : List.find? (fun x : String × FileData => decide (x.1 = joinPath out n))
          ((writeEntry [] (joinPath out e.1) (FileData.rawData e.2)).filter
            (fun x => !decide (x.1 ∈ targetKeys out es))) = none := by
        rw [List.find?_eq_none]
        intro a ha
        have ha1 : a ∈ writeEntry [] (joinPath out e.1) (FileData.rawData e.2) :=
          (List.mem_filter.1 ha).1
        have ha2 : a = (joinPath out e.1, FileData.rawData e.2) := by
          simpa [writeEntry] using ha1
        intro hpa
        have ha3 : a.1 = joinPath out n := of_decide_eq_true hpa
        rw [ha2] at ha3
        exact hqk ha3.symm
      unfold findPair
      rw [List.find?_append, hpart, Option.none_or]
      exact ih n b hrel' hn' hb

/-- Counterexample to claim C1 as stated: extraction succeeds into a
destination directory that already holds the file "/out/old.txt"; that
file survives, so the destination does not contain exactly the archive's
entries — it keeps a path that is none of the entry targets. -/
theorem extract_exact_counter :
    (extract ⟨[("/a.zip", .zipData [("x.txt", [1])]), ("/out/old.txt", .rawData [2])], ["/out"]⟩
        "" "/a.zip" (some "/out")).2 = none
    ∧ lookupFile
        (extract ⟨[("/a.zip", .zipData [("x.txt", [1])]), ("/out/old.txt", .rawData [2])], ["/out"]⟩
          "" "/a.zip" (some "/out")).1 "/out/old.txt" = some (.rawData [2])
    ∧ startswith "/out/old.txt" ("/out" ++ "/") = true
    ∧ ¬("/out/old.txt" ∈ targetKeys "/out" [("x.txt", [1])]) := by decide

/-- Claim C1 (amended): for a well-formed archive extracted into a
destination that holds no regular file beforehand (neither at the
destination path itself nor below it), extraction succeeds and the
destination then contains exactly the archive's entries at their encoded
relative paths: the files below the destination are precisely those
obtained by writing every entry, in order, into an empty directory, and
when entry names are distinct each entry's path holds exactly its byte
content. -/
theorem extract_fresh_exact (fs : FS) (cwd p out : String) (es : List (String × Bytes))
    (h1 : endswith p ".zip" = true)
    (h2 : lookupFile fs p = some (.zipData es))
    (hout : lookupFile fs out = none)
    (ho0 : ¬out = "") (ho1 : endswith out "/" = false)
    (hrel : ∀ e ∈ es, startswith e.1 "/" = false)
    (hfresh : ∀ x ∈ fs.files, startswith x.1 (out ++ "/") = false) :
    (extract fs cwd p (some out)).2 = none
    ∧ (extract fs cwd p (some out)).1.files.filter (fun x => startswith x.1 (out ++ "/"))
        = writeAll out [] es
    ∧ ((es.map Prod.fst).Nodup → ∀ n b, (n, b) ∈ es →
        lookupFile (extract fs cwd p (some out)).1 (joinPath out n)
          = some (FileData.rawData b)) := by
  obtain ⟨fs2, hmd⟩ := makedirs_isOk fs out hout
  have he : extract fs cwd p (some out) = (extractall fs2 out es, none) :=
    extract_success_shape fs fs2 cwd p (some out) es h1 h2 hmd
  have hfiles2 : fs2.files = fs.files := (makedirs_ok fs out fs2 hmd).1
  refine ⟨by rw [he], ?_, ?_⟩
  · rw [he]
    show (writeAll out fs2.files es).filter (fun x => startswith x.1 (out ++ "/"))
        = writeAll out [] es
    rw [writeAll_split, hfiles2, List.filter_append]
    have hA : (fs.files.filter (fun x => !decide (x.1 ∈ targetKeys out es))).filter
        (fun x => startswith x.1 (out ++ "/")) = [] := by
      rw [List.filter_eq_nil_iff]
      intro a ha
      have ha1 : a ∈ fs.files := List.mem_of_mem_filter ha
      have hf := hfresh a ha1
      simp [hf]
    have hB : (writeAll out [] es).filter (fun x => startswith x.1 (out ++ "/"))
        = writeAll out [] es := by
      rw [List.filter_eq_self]
      intro a ha
      have hk := writeAll_nil_keys out es a ha
      obtain ⟨x, hx, hxe⟩ := List.mem_map.1 hk
      rw [← hxe]
      exact startswith_target out x.1 ho0 ho1 (hrel x hx)
    rw [hA, hB, List.nil_append]
  · intro hn n b hb
    rw [he]
    show (findPair (writeAll out fs2.files es) (joinPath out n)).map (fun e => e.2)
        = some (FileData.rawData b)
    rw [writeAll_split, hfiles2]
    unfold findPair
    rw [List.find?_append]
    have hpart1 : List.find? (fun x : String × FileData => decide (x.1 = joinPath out n))
        (fs.files.filter (fun x => !decide (x.1 ∈ targetKeys out es))) = none := by
      rw [List.find?_eq_none]
      intro a ha
      have h2f := (List.mem_filter.1 ha).2
      intro hpa
      have ha1 : a.1 = joinPath out n := of_decide_eq_true hpa
      have hmem : joinPath out n ∈ targetKeys out es := List.mem_map_of_mem _ hb
      simp only [Bool.not_eq_true', decide_eq_false_iff_not] at h2f
      exact h2f (ha1 ▸ hmem)
    rw [hpart1, Option.none_or]
    have hfp := findPair_writeAll_nil out es ho0 ho1 n b hrel hn hb
    unfold findPair at hfp
    rw [hfp]
    rfl

/-- Witness for `extract_fresh_exact`: a two-entry archive extracted into
the fresh directory "/out". -/
theorem extract_fresh_exact_w :
    (extract ⟨[("/a.zip", .zipData [("x.txt", [7]), ("y.txt", [8])])], []⟩
        "" "/a.zip" (some "/out")).2 = none
    ∧ (extract ⟨[("/a.zip", .zipData [("x.txt", [7]), ("y.txt", [8])])], []⟩
        "" "/a.zip" (some "/out")).1.files.filter (fun x => startswith x.1 ("/out" ++ "/"))
        = writeAll "/out" [] [("x.txt", [7]), ("y.txt", [8])]
    ∧ ((([("x.txt", [7]), ("y.txt", [8])] : List (String × Bytes)).map Prod.fst).Nodup →
        ∀ n b, (n, b) ∈ ([("x.txt", [7]), ("y.txt", [8])] : List (String × Bytes)) →
        lookupFile (extract ⟨[("/a.zip", .zipData [("x.txt", [7]), ("y.txt", [8])])], []⟩
            "" "/a.zip" (some "/out")).1 (joinPath "/out" n)
          = some (FileData.rawData b)) :=
  extract_fresh_exact ⟨[("/a.zip", .zipData [("x.txt", [7]), ("y.txt", [8])])], []⟩
    "" "/a.zip" "/out" [("x.txt", [7]), ("y.txt", [8])]
    (by decide) (by decide) (by decide) (by decide) (by decide) (by decide) (by decide)

/-- Counterexample to claim C7 as stated: the archive "/tmp/a.zip"
contains an entry named "a.zip", and the destination is "/tmp", so
extraction overwrites the archive itself with the entry's (non-archive)
bytes.  The first run succeeds but the second run raises `BadZipFile`,
so extraction is not idempotent for every valid archive and
destination. -/
theorem extract_idem_counter :
    (extract ⟨[("/tmp/a.zip", .zipData [("a.zip", [1, 2])])], ["/tmp"]⟩
        "" "/tmp/a.zip" (some "/tmp")).2 = none
    ∧ (extract (extract ⟨[("/tmp/a.zip", .zipData [("a.zip", [1, 2])])], ["/tmp"]⟩
        "" "/tmp/a.zip" (some "/tmp")).1 "" "/tmp/a.zip" (some "/tmp")).2
        = some (.badZipFile "File is not a zip file") := by decide

/-- Claim C7 (amended): extraction is idempotent provided no entry's
target path collides with the archive path or with the destination path
itself: for every valid archive and destination (the destination not
being an existing regular file), the first run succeeds, the second run
with the same inputs also succeeds — the directory-creation step does
not error on the existing directory and existing files are overwritten
without error — and it leaves exactly the state of the first run. -/
theorem extract_idempotent (fs : FS) (cwd p : String) (o : Option String)
    (es : List (String × Bytes))
    (h1 : endswith p ".zip" = true)
    (h2 : lookupFile fs p = some (.zipData es))
    (hout : lookupFile fs (resolveOut cwd p o) = none)
    (hcoll : ∀ e ∈ es, ¬joinPath (resolveOut cwd p o) e.1 = p
        ∧ ¬joinPath (resolveOut cwd p o) e.1 = resolveOut cwd p o) :
    (extract fs cwd p o).2 = none
    ∧ extract (extract fs cwd p o).1 cwd p o = ((extract fs cwd p o).1, none) := by
  obtain ⟨fs2, hmd⟩ := makedirs_isOk fs (resolveOut cwd p o) hout
  obtain ⟨hfiles2, hdir2⟩ := makedirs_ok fs _ fs2 hmd
  have he : extract fs cwd p o = (extractall fs2 (resolveOut cwd p o) es, none) :=
    extract_success_shape fs fs2 cwd p o es h1 h2 hmd
  set out := resolveOut cwd p o with hodef
  have hpt : ¬p ∈ targetKeys out es := by
    intro hm
    obtain ⟨x, hx, hxe⟩ := List.mem_map.1 hm
    exact (hcoll x hx).1 hxe
  have hot : ¬out ∈ targetKeys out es := by
    intro hm
    obtain ⟨x, hx, hxe⟩ := List.mem_map.1 hm
    exact (hcoll x hx).2 hxe
  have hlp : lookupFile (extractall fs2 out es) p = some (FileData.zipData es) := by
    unfold lookupFile at h2 ⊢
    show (findPair (writeAll out fs2.files es) p).map (fun e => e.2) = _
    rw [findPair_writeAll_ne out es p fs2.files hpt, hfiles2]
    exact h2
  have hlo : lookupFile (extractall fs2 out es) out = none := by
    unfold lookupFile at hout ⊢
    show (findPair (writeAll out fs2.files es) out).map (fun e => e.2) = _
    rw [findPair_writeAll_ne out es out fs2.files hot, hfiles2]
    exact hout
  have hmd2 : makedirs (extractall fs2 out es) out = .ok (extractall fs2 out es) :=
    makedirs_mem _ out hlo hdir2
  have he2 : extract (extractall fs2 out es) cwd p o
      = (extractall (extractall fs2 out es) out es, none) :=
    extract_success_shape (extractall fs2 out es) (extractall fs2 out es) cwd p o es h1 hlp hmd2
  have hidem : extractall (extractall fs2 out es) out es = extractall fs2 out es := by
    unfold extractall
    simp [writeAll_idem]
  refine ⟨by rw [he], ?_⟩
  rw [he]
  show extract (extractall fs2 out es) cwd p o = (extractall fs2 out es, none)
  rw [he2, hidem]

/-- Witness for `extract_idempotent`: a one-entry archive "/tmp/foo.zip"
extracted twice into "/out". -/
theorem extract_idempotent_w :
    (extract ⟨[("/tmp/foo.zip", FileData.zipData [("x.txt", [7])])], []⟩
        "" "/tmp/foo.zip" (some "/out")).2 = none
    ∧ extract (extract ⟨[("/tmp/foo.zip", FileData.zipData [("x.txt", [7])])], []⟩
        "" "/tmp/foo.zip" (some "/out")).1 "" "/tmp/foo.zip" (some "/out")
      = ((extract ⟨[("/tmp/foo.zip", FileData.zipData [("x.txt", [7])])], []⟩
          "" "/tmp/foo.zip" (some "/out")).1, none) :=
  extract_idempotent ⟨[("/tmp/foo.zip", FileData.zipData [("x.txt", [7])])], []⟩
    "" "/tmp/foo.zip" (some "/out") [("x.txt", [7])]
    (by decide) (by decide) (by decide) (by decide)
